import Mathlib

/-!
Verification of the pfp (Parallel File Processor) repository.

The development shallowly embeds the two execution engines of the
repository:

- `src/lib.rs`: the rayon-based chunk executor `parallelize_chunk`
  together with its outcome classification, and
- `src/main.rs`: the slicing helper `get_chunk` and the daemon run loop
  `run` that drives GNU parallel over chunks of the enumerated files.

External effects are embedded as explicit inputs: the result of spawning
the configured script for a file is a parameter
`exec : alpha -> Except String ProcOutput` (the value the call to
Command::output would return), and the value read from the shared atomic
cancellation flag at each poll is a parameter as well.  The cancellation
flag is monotone (false to true, at most once), so the sequence of values
observed by successive polls is represented by `cancelFrom : Option Nat`,
the index of the first poll that observes true.
-/

namespace Pfp

section LibRs

variable {α : Type}

/-- Embeds the TaskOutcome enum defined inside parallelize_chunk,
src/lib.rs lines 60 to 65. -/
inductive TaskOutcome where
  | Processed
  | Errored
  | Cancelled
deriving DecidableEq, Repr

/-- Embeds the matches! filter for Processed, src/lib.rs line 109. -/
def isProcessed : TaskOutcome → Bool
  | .Processed => true
  | _ => false

/-- Embeds the matches! filter for Errored, src/lib.rs line 113. -/
def isErrored : TaskOutcome → Bool
  | .Errored => true
  | _ => false

/-- Embeds the matches! filter for Cancelled, src/lib.rs line 117. -/
def isCancelled : TaskOutcome → Bool
  | .Cancelled => true
  | _ => false

/-- Embeds std::process::Output as far as parallelize_chunk inspects it:
the success bit of the exit status and the captured stdout and stderr
(src/lib.rs lines 82 to 90 read output.status.success, output.stdout and
output.stderr). -/
structure ProcOutput where
  status_success : Bool
  stdout : String
  stderr : String
deriving DecidableEq, Repr

/-- Embeds the per-item closure of the par_iter map in parallelize_chunk,
src/lib.rs lines 69 to 103.  The argument cancelled is the value the
closure observes when it calls should_cancel for this item; exec is the
outcome of Command::new(script).arg(file).output() for this file.  The
first match arm (any script, guard should_cancel) yields Cancelled; with
a script, an Ok output is classified by exit status and an Err from the
spawn is mapped to Errored (lines 92 to 96); without a script the item is
Processed (lines 99 to 102). -/
def taskOutcome (script : Option String) (exec : α → Except String ProcOutput)
    (cancelled : Bool) (file : α) : TaskOutcome :=
  if cancelled then
    TaskOutcome.Cancelled
  else
    match script with
    | some _ =>
      match exec file with
      | Except.ok output =>
        if output.status_success then TaskOutcome.Processed else TaskOutcome.Errored
      | Except.error _ => TaskOutcome.Errored
    | none => TaskOutcome.Processed

/-- Embeds parallelize_chunk, src/lib.rs lines 52 to 121.  The rayon
par_iter and collect preserve the input order, so the result vector is
the ordered map of the per-item closure over the chunk; should_cancel is
an impure nullary closure in the source, called once per item, so its
observations are embedded as a function from the item position to the
boolean read at that call.  The function counts the three outcome kinds
and always returns Ok of the triple (processed, errored, cancelled). -/
def parallelize_chunk (chunk : List α) (script : Option String)
    (exec : α → Except String ProcOutput) (should_cancel : Nat → Bool) :
    Except String (Nat × Nat × Nat) :=
  let results : List TaskOutcome :=
    chunk.enum.map (fun p => taskOutcome script exec (should_cancel p.1) p.2)
  let processed := results.countP isProcessed
  let errored := results.countP isErrored
  let cancelled := results.countP isCancelled
  Except.ok (processed, errored, cancelled)

/-- Length of the result vector built by parallelize_chunk: one outcome
per item of the chunk. -/
lemma results_length (chunk : List α) (script : Option String)
    (exec : α → Except String ProcOutput) (cobs : Nat → Bool) :
    (chunk.enum.map fun p => taskOutcome script exec (cobs p.1) p.2).length
      = chunk.length := by
  simp [List.enum_length]

/-- The three outcome filters are exhaustive and mutually exclusive, so
their counts over any result vector sum to its length. -/
lemma outcome_count_sum (l : List TaskOutcome) :
    l.countP isProcessed + l.countP isErrored + l.countP isCancelled = l.length := by
  induction l with
  | nil => rfl
  | cons a t ih =>
    cases a <;>
      simp [List.countP_cons, isProcessed, isErrored, isCancelled] <;>
      omega

/-- With no script and every cancellation poll reading false, every item
of the chunk is Processed. -/
lemma parallelize_chunk_noop (chunk : List α) (exec : α → Except String ProcOutput)
    (cobs : Nat → Bool) (h : ∀ j, cobs j = false) :
    parallelize_chunk chunk none exec cobs = Except.ok (chunk.length, 0, 0) := by
  have hall : ∀ r ∈ chunk.enum.map (fun p => taskOutcome none exec (cobs p.1) p.2),
      r = TaskOutcome.Processed := by
    intro r hr
    rcases List.mem_map.1 hr with ⟨p, _, he⟩
    rw [h p.1] at he
    simpa [taskOutcome] using he.symm
  simp only [parallelize_chunk]
  rw [List.countP_eq_length.2 (fun a ha => by rw [hall a ha]; rfl),
    List.countP_eq_zero.2 (fun a ha => by rw [hall a ha]; simp [isErrored]),
    List.countP_eq_zero.2 (fun a ha => by rw [hall a ha]; simp [isCancelled]),
    results_length]

/-- With every cancellation poll reading true, every item of the chunk is
Cancelled, whatever the script and whatever spawning would do. -/
lemma parallelize_chunk_all_cancelled (chunk : List α) (script : Option String)
    (exec : α → Except String ProcOutput) (cobs : Nat → Bool) (h : ∀ j, cobs j = true) :
    parallelize_chunk chunk script exec cobs = Except.ok (0, 0, chunk.length) := by
  have hall : ∀ r ∈ chunk.enum.map (fun p => taskOutcome script exec (cobs p.1) p.2),
      r = TaskOutcome.Cancelled := by
    intro r hr
    rcases List.mem_map.1 hr with ⟨p, _, he⟩
    rw [h p.1] at he
    simpa [taskOutcome] using he.symm
  simp only [parallelize_chunk]
  rw [List.countP_eq_zero.2 (fun a ha => by rw [hall a ha]; simp [isProcessed]),
    List.countP_eq_zero.2 (fun a ha => by rw [hall a ha]; simp [isErrored]),
    List.countP_eq_length.2 (fun a ha => by rw [hall a ha]; rfl),
    results_length]

end LibRs

section LibRsConstants

/-- A process output with failing exit status, for concrete instances. -/
def failOutput : ProcOutput := ⟨false, "", ""⟩

/-- A process output with successful exit status, for concrete instances. -/
def okOutput : ProcOutput := ⟨true, "", ""⟩

/-- A spawn environment in which every spawn attempt fails, as when the
configured executable does not exist. -/
def execSpawnFail {α : Type} : α → Except String ProcOutput :=
  fun _ => Except.error ("No such file or directory")

/-- A spawn environment in which the command always runs and exits
nonzero. -/
def execExitFail {α : Type} : α → Except String ProcOutput :=
  fun _ => Except.ok failOutput

/-- A concrete script path for concrete instances. -/
def scriptS : String := "process.sh"

/-- A concrete chunk of ten work items. -/
def tenItems : List String :=
  ["f0", "f1", "f2", "f3", "f4", "f5", "f6", "f7", "f8", "f9"]

end LibRsConstants

section LibRsClaims

variable {α : Type}

/-- C9: for every chunk, script option, spawn environment and
cancellation observation sequence, parallelize_chunk returns Ok with a
tally and never returns an Err value, even when spawning fails, despite
the doc comment of the function (src/lib.rs lines 32 to 35) saying that
errors from script execution are propagated. -/
theorem parallelize_chunk_never_errors (chunk : List α) (script : Option String)
    (exec : α → Except String ProcOutput) (should_cancel : Nat → Bool) :
    ∃ t, parallelize_chunk chunk script exec should_cancel = Except.ok t :=
  ⟨_, rfl⟩

/-- C2: evaluation of the code at the failing input.  When spawning the
configured command fails for the single item of a chunk, the code does
not propagate a fatal error: it records the item as Errored and returns
the Ok tally (0, 1, 0), contradicting the claim (and the doc comment of
parallelize_chunk) that such a failure aborts the chunk with no tally. -/
theorem spawn_failure_recorded_as_errored :
    parallelize_chunk (["file1"] : List String) (some scriptS)
      execSpawnFail (fun _ => false) = Except.ok (0, 1, 0) := by
  rfl

/-- C5: every item entering a chunk is assigned exactly one outcome and
the tally returned by parallelize_chunk satisfies
processed + errored + cancelled = number of items in the chunk. -/
theorem chunk_tally_sums_to_length (chunk : List α) (script : Option String)
    (exec : α → Except String ProcOutput) (should_cancel : Nat → Bool) :
    ∃ p e c, parallelize_chunk chunk script exec should_cancel = Except.ok (p, e, c) ∧
      p + e + c = chunk.length := by
  refine ⟨_, _, _, rfl, ?_⟩
  rw [outcome_count_sum, results_length]

/-- C3: classification of an item when cancellation is not observed.
With the no-op action the outcome is Processed; with a script, exit
status success yields Processed and nonzero exit status yields Errored,
and the chunk still completes with an Ok tally counting the failure as a
per-item Errored (the run is not aborted). -/
theorem item_outcome_classification (s : String) (exec : α → Except String ProcOutput)
    (file : α) (o : ProcOutput) (h : exec file = Except.ok o) :
    taskOutcome none exec false file = TaskOutcome.Processed ∧
    (o.status_success = true →
      taskOutcome (some s) exec false file = TaskOutcome.Processed) ∧
    (o.status_success = false →
      taskOutcome (some s) exec false file = TaskOutcome.Errored) ∧
    (o.status_success = false →
      parallelize_chunk [file] (some s) exec (fun _ => false) = Except.ok (0, 1, 0)) := by
  refine ⟨rfl, ?_, ?_, ?_⟩ <;> intro hs <;>
    simp [taskOutcome, parallelize_chunk, h, hs, List.countP, List.countP.go,
      isProcessed, isErrored, isCancelled]

/-- Witness for C3 at a concrete input: a command that runs and exits
nonzero on the item f0. -/
theorem item_outcome_classification_witness :
    taskOutcome none execExitFail false (tenItems.headI) = TaskOutcome.Processed ∧
    (failOutput.status_success = true →
      taskOutcome (some scriptS) execExitFail false (tenItems.headI) = TaskOutcome.Processed) ∧
    (failOutput.status_success = false →
      taskOutcome (some scriptS) execExitFail false (tenItems.headI) = TaskOutcome.Errored) ∧
    (failOutput.status_success = false →
      parallelize_chunk [tenItems.headI] (some scriptS) execExitFail (fun _ => false) =
        Except.ok (0, 1, 0)) :=
  item_outcome_classification scriptS execExitFail (tenItems.headI) failOutput rfl

/-- C4: an item whose cancellation poll observes true is recorded as
Cancelled, independently of the spawn environment (the script is never
invoked for it), and a ten-item chunk whose polls all observe true
tallies as (0, 0, 10). -/
theorem cancellation_checked_before_dispatch (script : Option String)
    (exec exec2 : α → Except String ProcOutput) (file : α) (chunk : List α)
    (h : chunk.length = 10) :
    taskOutcome script exec true file = TaskOutcome.Cancelled ∧
    taskOutcome script exec true file = taskOutcome script exec2 true file ∧
    parallelize_chunk chunk script exec (fun _ => true) = Except.ok (0, 0, 10) := by
  refine ⟨rfl, rfl, ?_⟩
  rw [parallelize_chunk_all_cancelled chunk script exec _ (fun _ => rfl), h]

/-- Witness for C4 at a concrete input: ten items, spawn environments
that would fail in different ways, all polls observing true. -/
theorem cancellation_checked_before_dispatch_witness :
    tenItems.length = 10 ∧
    (taskOutcome (some scriptS) execSpawnFail true (tenItems.headI) = TaskOutcome.Cancelled ∧
    taskOutcome (some scriptS) execSpawnFail true (tenItems.headI) =
      taskOutcome (some scriptS) execExitFail true (tenItems.headI) ∧
    parallelize_chunk tenItems (some scriptS) execSpawnFail (fun _ => true) =
      Except.ok (0, 0, 10)) :=
  ⟨rfl, cancellation_checked_before_dispatch (some scriptS) execSpawnFail execExitFail
    (tenItems.headI) tenItems rfl⟩

end LibRsClaims

section MainRs

variable {α : Type}

/-- Embeds get_chunk, src/main.rs lines 158 to 162.  The source computes
start = index * chunk_size and end = start + chunk_size and returns
files[start..end].to_vec(); the Rust slice indexing panics when end
exceeds the length, which is embedded as none. -/
def get_chunk (index : Nat) (chunk_size : Nat) (files : List α) : Option (List α) :=
  if index * chunk_size + chunk_size ≤ files.length then
    some ((files.drop (index * chunk_size)).take chunk_size)
  else
    none

/-- Value observed by the c-th poll of the shared termination flag
(should_term, src/main.rs lines 150 to 156).  The flag is monotone, set
at most once by the signal handler, so the observation history is fully
described by cancelFrom, the index of the first poll that reads true. -/
def observeTerm (cancelFrom : Option Nat) (c : Nat) : Bool :=
  match cancelFrom with
  | none => false
  | some k => decide (k ≤ c)

/-- Chunks produced by the for loop of run, src/main.rs lines 217 to 226,
ignoring the termination polls: get_chunk n chunk_size files for the m
consecutive indices starting at n.  A none (a panic of the slice
indexing) propagates. -/
def fullChunks (K : Nat) (files : List α) : Nat → Nat → Option (List (List α))
  | 0, _ => some []
  | m + 1, n =>
    match get_chunk n K files, fullChunks K files m (n + 1) with
    | some ch, some rest => some (ch :: rest)
    | _, _ => none

/-- Chunks produced by one full pass of run, src/main.rs lines 204 to
235, when no termination poll reads true: the num_chunks = len / K full
chunks in order, then, when leftover = len % K is nonzero, the final call
get_chunk num_chunks leftover files (note: the source passes leftover,
not chunk_size, as the stride of get_chunk).  K = 0 is none because
len / K panics in the source (division by zero). -/
def runChunks (K : Nat) (files : List α) : Option (List (List α)) :=
  if K = 0 then
    none
  else
    match fullChunks K files (files.length / K) 0 with
    | none => none
    | some chs =>
      if files.length % K ≠ 0 then
        match get_chunk (files.length / K) (files.length % K) files with
        | none => none
        | some last => some (chs ++ [last])
      else
        some chs

/-- Embeds the chunk for loop of run, src/main.rs lines 217 to 226, with
the termination polls: m remaining chunk indices starting at n, with c
polls of the flag already made.  Each iteration slices the chunk, runs
parallelize on it (embedded as recording the chunk; the source waits for
GNU parallel to finish), then polls the flag once: a true poll returns
early with the chunks processed so far.  The result is the processed
chunks, the updated poll count, and whether the loop returned early. -/
def chunkLoop (cancelFrom : Option Nat) (K : Nat) (files : List α) :
    Nat → Nat → Nat → Option (List (List α) × Nat × Bool)
  | 0, _, c => some ([], c, false)
  | m + 1, n, c =>
    match get_chunk n K files with
    | none => none
    | some chunk =>
      if observeTerm cancelFrom c then
        some ([chunk], c + 1, true)
      else
        match chunkLoop cancelFrom K files m (n + 1) (c + 1) with
        | none => none
        | some (rest, c2, t) => some (chunk :: rest, c2, t)

/-- Embeds the body of one iteration of the run loop after the files
have been enumerated, src/main.rs lines 204 to 235: compute num_chunks
and leftover, run the chunk for loop, and when it did not return early
and leftover is nonzero, slice and process the final chunk (no poll
after it).  Returns the chunks processed, the updated poll count, and
whether an early return (observed termination) happened. -/
def runPassBody (cancelFrom : Option Nat) (K : Nat) (files : List α) (c : Nat) :
    Option (List (List α) × Nat × Bool) :=
  if K = 0 then
    none
  else
    match chunkLoop cancelFrom K files (files.length / K) 0 c with
    | none => none
    | some (chs, c2, true) => some (chs, c2, true)
    | some (chs, c2, false) =>
      if files.length % K ≠ 0 then
        match get_chunk (files.length / K) (files.length % K) files with
        | none => none
        | some last => some (chs ++ [last], c2, false)
      else
        some (chs, c2, false)

/-- Observable trace of one execution of run: how many enumerations of
the input path were made, how many inter-pass sleeps happened, and the
chunks fed to parallelize, in order across passes. -/
structure RunTrace (α : Type) where
  enums : Nat
  sleeps : Nat
  chunks : List (List α)
deriving DecidableEq, Repr

/-- Embeds the loop of run, src/main.rs lines 189 to 245.  Each
iteration polls the flag (line 193; a true poll returns), enumerates the
files of the current pass (line 202; the item set may change between
passes, hence enumerate is indexed by the pass number), processes the
chunks (lines 217 to 235), then either returns — on an early return from
the chunk loop, or when daemon is false (line 239; the || is
short-circuit, so no poll is made when daemon is false), or on a true
poll — or sleeps and starts the next pass.  fuel bounds the number of
iterations; none means the fuel ran out or a slice panicked. -/
def runLoop (cancelFrom : Option Nat) (daemon : Bool) (K : Nat)
    (enumerate : Nat → List α) :
    Nat → Nat → Nat → RunTrace α → Option (RunTrace α)
  | 0, _, _, _ => none
  | fuel + 1, pass, c, acc =>
    if observeTerm cancelFrom c then
      some acc
    else
      match runPassBody cancelFrom K (enumerate pass) (c + 1) with
      | none => none
      | some (chs, c2, early) =>
        let acc2 : RunTrace α :=
          ⟨acc.enums + 1, acc.sleeps, acc.chunks ++ chs⟩
        if early then
          some acc2
        else if daemon = false then
          some acc2
        else if observeTerm cancelFrom c2 then
          some acc2
        else
          runLoop cancelFrom daemon K enumerate fuel (pass + 1) (c2 + 1)
            ⟨acc2.enums, acc2.sleeps + 1, acc2.chunks⟩

/-- Entry point of the embedded run loop: no polls made yet, pass 0,
empty trace. -/
def run (cancelFrom : Option Nat) (daemon : Bool) (K : Nat)
    (enumerate : Nat → List α) (fuel : Nat) : Option (RunTrace α) :=
  runLoop cancelFrom daemon K enumerate fuel 0 0 ⟨0, 0, []⟩

end MainRs

section MainRsLemmas

variable {α : Type}

/-- The slice of a full chunk is in bounds: for n + 1 at most
len / K, the slice end (n + 1) * K is at most len. -/
lemma get_chunk_full_some (K : Nat) (files : List α) (n : Nat)
    (hn : n + 1 ≤ files.length / K) :
    get_chunk n K files = some ((files.drop (n * K)).take K) := by
  have h1 : (n + 1) * K ≤ (files.length / K) * K :=
    Nat.mul_le_mul hn (Nat.le_refl K)
  have h2 : (files.length / K) * K ≤ files.length := Nat.div_mul_le_self _ _
  have hb : n * K + K ≤ files.length := by
    calc n * K + K = (n + 1) * K := by ring
      _ ≤ (files.length / K) * K := h1
      _ ≤ files.length := h2
  simp [get_chunk, hb]

/-- The slice of the leftover chunk is in bounds: its end
(len / K) * (len % K) + len % K is at most len when K is positive. -/
lemma get_chunk_leftover_some (K : Nat) (files : List α) (hK : 1 ≤ K) :
    get_chunk (files.length / K) (files.length % K) files =
      some ((files.drop (files.length / K * (files.length % K))).take
        (files.length % K)) := by
  have hmod : files.length % K < K := Nat.mod_lt _ hK
  have hdm : K * (files.length / K) + files.length % K = files.length :=
    Nat.div_add_mod _ _
  have hb : files.length / K * (files.length % K) + files.length % K ≤
      files.length := by
    calc files.length / K * (files.length % K) + files.length % K
        ≤ files.length / K * K + files.length % K :=
          Nat.add_le_add_right (Nat.mul_le_mul (Nat.le_refl _) (Nat.le_of_lt hmod)) _
      _ = K * (files.length / K) + files.length % K := by ring
      _ = files.length := hdm
  simp [get_chunk, hb]

/-- Every slice taken by the for loop over full chunks is in bounds, so
fullChunks succeeds whenever it covers indices below len / K. -/
lemma fullChunks_isSome (K : Nat) (files : List α) :
    ∀ m n, n + m ≤ files.length / K → ∃ chs, fullChunks K files m n = some chs := by
  intro m
  induction m with
  | zero => exact fun n _ => ⟨[], rfl⟩
  | succ m ih =>
    intro n hn
    obtain ⟨rest, hrest⟩ := ih (n + 1) (by omega)
    exact ⟨_, by rw [fullChunks, get_chunk_full_some K files n (by omega), hrest]⟩

/-- The chunk computation of one full pass succeeds for every positive
chunk size: no slice indexing panics. -/
lemma runChunks_isSome (K : Nat) (files : List α) (hK : 1 ≤ K) :
    ∃ chs, runChunks K files = some chs := by
  have hK0 : ¬ K = 0 := by omega
  obtain ⟨chs, hchs⟩ :=
    fullChunks_isSome K files (files.length / K) 0 (by omega)
  by_cases hlo : files.length % K = 0
  · exact ⟨chs, by simp [runChunks, hK0, hchs, hlo]⟩
  · exact ⟨chs ++ [(files.drop (files.length / K * (files.length % K))).take
      (files.length % K)],
      by simp [runChunks, hK0, hchs, hlo, get_chunk_leftover_some K files hK]⟩

/-- The chunk for loop with termination polls also only takes in-bounds
slices, whatever the poll observations. -/
lemma chunkLoop_isSome (cf : Option Nat) (K : Nat) (files : List α) :
    ∀ m n c, n + m ≤ files.length / K →
      ∃ r, chunkLoop cf K files m n c = some r := by
  intro m
  induction m with
  | zero => exact fun n c _ => ⟨_, rfl⟩
  | succ m ih =>
    intro n c hn
    obtain ⟨⟨rest, c2, t⟩, hr⟩ := ih (n + 1) (c + 1) (by omega)
    by_cases ht : observeTerm cf c
    · refine ⟨([(files.drop (n * K)).take K], c + 1, true), ?_⟩
      rw [chunkLoop, get_chunk_full_some K files n (by omega)]
      simp [ht]
    · refine ⟨((files.drop (n * K)).take K :: rest, c2, t), ?_⟩
      rw [chunkLoop, get_chunk_full_some K files n (by omega)]
      simp [ht, hr]

/-- One pass body never panics for a positive chunk size, whatever the
poll observations: every get_chunk call it makes is in bounds. -/
lemma runPassBody_isSome (cf : Option Nat) (K : Nat) (files : List α) (c : Nat)
    (hK : 1 ≤ K) : ∃ r, runPassBody cf K files c = some r := by
  obtain ⟨⟨chs, c2, t⟩, hr⟩ :=
    chunkLoop_isSome cf K files (files.length / K) 0 c (by omega)
  rw [runPassBody, if_neg (by omega), hr]
  cases t with
  | true => exact ⟨(chs, c2, true), rfl⟩
  | false =>
    by_cases hlo : files.length % K = 0
    · refine ⟨(chs, c2, false), ?_⟩
      simp [hlo]
    · refine ⟨(chs ++ [(files.drop (files.length / K * (files.length % K))).take
        (files.length % K)], c2, false), ?_⟩
      simp [hlo, get_chunk_leftover_some K files hK]

/-- With no termination signal ever observed, the chunk for loop never
returns early and processes exactly the chunks of fullChunks, consuming
one poll per full chunk. -/
lemma chunkLoop_none_eq (K : Nat) (files : List α) :
    ∀ m n c, chunkLoop none K files m n c =
      (fullChunks K files m n).map (fun chs => (chs, c + m, false)) := by
  intro m
  induction m with
  | zero => intro n c; rfl
  | succ m ih =>
    intro n c
    rw [chunkLoop, fullChunks]
    cases hg : get_chunk n K files with
    | none => rfl
    | some ch =>
      rw [ih (n + 1) (c + 1)]
      cases hf : fullChunks K files m (n + 1) with
      | none => rfl
      | some rest =>
        rw [show c + (m + 1) = c + 1 + m from by omega]
        rfl

/-- With no termination signal ever observed, one pass body processes
exactly the chunks of runChunks, consuming one poll per full chunk, and
never returns early. -/
lemma runPassBody_none (K : Nat) (files : List α) (c : Nat) :
    runPassBody none K files c =
      (runChunks K files).map (fun chs => (chs, c + files.length / K, false)) := by
  rw [runPassBody, runChunks]
  by_cases hK : K = 0
  · simp [hK]
  · rw [if_neg hK, if_neg hK, chunkLoop_none_eq]
    cases hf : fullChunks K files (files.length / K) 0 with
    | none => rfl
    | some chs =>
      simp only [Option.map_some]
      by_cases hlo : files.length % K = 0
      · simp [hlo]
      · cases hg : get_chunk (files.length / K) (files.length % K) files <;>
          simp [hlo, hg]

end MainRsLemmas

section MainRsClaims

variable {α : Type}

/-- C1: evaluation of the code at the failing input.  With 12 items and
chunk_size 5 the run loop produces chunks of sizes 5, 5, 2 as claimed,
but the last chunk is files[4..6] rather than files[10..12], because the
leftover call get_chunk num_chunks leftover files uses leftover both as
the stride and as the width of the slice (src/main.rs lines 158 to 162
and 232), so concatenating the chunks does not reproduce the original
sequence: items 10 and 11 are dropped and items 4 and 5 are duplicated.
This contradicts the debug output of the loop itself (line 231), which
reports the chunk start as num_chunks * chunk_size. -/
theorem run_loop_chunking_drops_items :
    runChunks 5 (List.range 12) =
      some [[0, 1, 2, 3, 4], [5, 6, 7, 8, 9], [4, 5]] ∧
    ([[0, 1, 2, 3, 4], [5, 6, 7, 8, 9], [4, 5]] : List (List Nat)).flatten ≠
      List.range 12 := by
  decide

/-- C10: every get_chunk call the run loop makes has its slice end within
bounds, for every file list, every chunk_size at least 1, every poll
observation history and every poll count: the slice indexing never
panics, in a full pass and in a pass cut short by cancellation alike. -/
theorem get_chunk_calls_in_bounds (cf : Option Nat) (K : Nat) (files : List α)
    (c : Nat) (hK : 1 ≤ K) :
    (∃ r, runPassBody cf K files c = some r) ∧
      ∃ chs, runChunks K files = some chs :=
  ⟨runPassBody_isSome cf K files c hK, runChunks_isSome K files hK⟩

/-- Witness for C10 at a concrete input: 12 items, chunk_size 5, the
termination flag set from the fourth poll onward. -/
theorem get_chunk_calls_in_bounds_witness :
    1 ≤ 5 ∧ ((∃ r, runPassBody (some 3) 5 (List.range 12) 0 = some r) ∧
      ∃ chs, runChunks 5 (List.range 12) = some chs) :=
  ⟨by decide, get_chunk_calls_in_bounds (some 3) 5 (List.range 12) 0 (by decide)⟩

/-- C6: counterexample to the claim as stated.  With daemon disabled but
the cancellation token set before the run starts, the loop returns at its
first poll without enumerating at all: the number of enumerations is 0,
not the claimed exactly 1. -/
theorem nondaemon_cancelled_pass_skipped :
    (run (some 0) false 1 (fun _ => tenItems) 1).map (fun t => t.enums) = some 0 ∧
    (0 : Nat) ≠ 1 := by
  exact ⟨rfl, by decide⟩

/-- C6 as amended: when daemon mode is disabled the loop never sleeps,
never begins a second enumeration, and terminates within its first
iteration whatever the token observations; when the token is never
observed set it performs exactly one enumeration and processes exactly
the chunks of that pass. -/
theorem nondaemon_single_pass (K fuel : Nat) (cf : Option Nat)
    (enumerate : Nat → List α) (hK : 1 ≤ K) (hf : 1 ≤ fuel) :
    ∃ t, run cf false K enumerate fuel = some t ∧ t.sleeps = 0 ∧ t.enums ≤ 1 ∧
      (cf = none → t.enums = 1 ∧ runChunks K (enumerate 0) = some t.chunks) := by
  obtain ⟨f, rfl⟩ : ∃ f, fuel = f + 1 := ⟨fuel - 1, by omega⟩
  rw [run]
  simp only [runLoop]
  by_cases hobs : observeTerm cf 0
  · rw [if_pos hobs]
    refine ⟨⟨0, 0, []⟩, rfl, rfl, Nat.zero_le 1, ?_⟩
    intro hcf
    subst hcf
    simp [observeTerm] at hobs
  · rw [if_neg hobs]
    obtain ⟨⟨chs, c2, early⟩, hr⟩ := runPassBody_isSome cf K (enumerate 0) (0 + 1) hK
    rw [hr]
    refine ⟨⟨1, 0, chs⟩, ?_, rfl, le_refl 1, ?_⟩
    · cases early <;> rfl
    · intro hcf
      subst hcf
      rw [runPassBody_none] at hr
      cases hrc : runChunks K (enumerate 0) with
      | none => rw [hrc] at hr; simp at hr
      | some chs2 =>
        rw [hrc] at hr
        simp only [Option.map_some', Option.some.injEq, Prod.mk.injEq] at hr
        obtain ⟨hchs, _, _⟩ := hr
        exact ⟨rfl, by rw [hchs]⟩

/-- Witness for the amended C6 at a concrete input: ten items, chunk_size
3, fuel 2, no termination signal. -/
theorem nondaemon_single_pass_witness :
    (1 ≤ 3 ∧ 1 ≤ 2) ∧
    ∃ t, run none false 3 (fun _ => tenItems) 2 = some t ∧ t.sleeps = 0 ∧
      t.enums ≤ 1 ∧
      ((none : Option Nat) = none → t.enums = 1 ∧
        runChunks 3 tenItems = some t.chunks) :=
  ⟨⟨by decide, by decide⟩,
    nondaemon_single_pass 3 2 none (fun _ => tenItems) (by decide) (by decide)⟩

end MainRsClaims

section SpecModelledPass

variable {α : Type}

/-- Embeds the RunSummary record of the spec, section 3: aggregated
counts for one full pass. -/
structure RunSummary where
  total : Nat
  processed : Nat
  errored : Nat
  cancelled : Nat
deriving DecidableEq, Repr

/-- Recursion worker for specChunks; the first argument bounds the
recursion by the length of the list. -/
def chunksAux (K : Nat) : Nat → List α → List (List α)
  | 0, _ => []
  | _ + 1, [] => []
  | f + 1, a :: l => (a :: l).take K :: chunksAux K f ((a :: l).drop K)

/-- Modelled from the spec: the Chunk Partitioner of section 4.1 for the
library implementation.  The repository has no pass driver that feeds
parallelize_chunk (main.rs drives GNU parallel instead), so the
partitioning of a pass into successive chunks of size K is taken from
the spec contract: ordered, contiguous groups of K items, the last
holding the remainder. -/
def specChunks (K : Nat) (files : List α) : List (List α) :=
  chunksAux K files.length files

/-- Modelled from the spec: sections 4.4 and 4.5 — the chunks of a pass
are processed strictly sequentially through parallelize_chunk, the
per-chunk tallies are summed into the RunSummary, and a fatal error from
a chunk would propagate.  cobs i j is the cancellation observation of
item j of chunk i. -/
def passFold (script : Option String) (exec : α → Except String ProcOutput)
    (cobs : Nat → Nat → Bool) : Nat → List (List α) → Except String RunSummary
  | _, [] => Except.ok ⟨0, 0, 0, 0⟩
  | i, ch :: rest =>
    match parallelize_chunk ch script exec (cobs i) with
    | Except.error e => Except.error e
    | Except.ok (p, er, ca) =>
      match passFold script exec cobs (i + 1) rest with
      | Except.error e => Except.error e
      | Except.ok s =>
        Except.ok ⟨s.total + ch.length, s.processed + p,
          s.errored + er, s.cancelled + ca⟩

/-- Modelled from the spec: one full pass of the library implementation,
partitioning the enumerated files per section 4.1 and summing the chunk
tallies per section 4.5. -/
def runPassSummary (K : Nat) (files : List α) (script : Option String)
    (exec : α → Except String ProcOutput) (cobs : Nat → Nat → Bool) :
    Except String RunSummary :=
  passFold script exec cobs 0 (specChunks K files)

/-- A cancellation observation history in which no poll ever reads
true. -/
def neverCancel2 : Nat → Nat → Bool := fun _ _ => false

/-- With the no-op action and no cancellation observed, a pass folds to
the fully deterministic summary: every item processed. -/
lemma passFold_noop (exec : α → Except String ProcOutput) (cobs : Nat → Nat → Bool)
    (h : ∀ i j, cobs i j = false) :
    ∀ chs i, passFold none exec cobs i chs =
      Except.ok ⟨(chs.map List.length).sum, (chs.map List.length).sum, 0, 0⟩ := by
  intro chs
  induction chs with
  | nil => intro i; rfl
  | cons ch rest ih =>
    intro i
    rw [passFold, parallelize_chunk_noop ch exec (cobs i) (h i), ih (i + 1)]
    simp [Nat.add_comm]

end SpecModelledPass

section SpecModelledClaims

variable {α : Type}

/-- C8: with the no-op action and cancellation never signalled, the pass
summary is a deterministic function of the item sequence: two passes
over the unchanged sequence yield identical RunSummary values, whatever
the spawn environments and whatever the (never-true) poll histories of
the two passes. -/
theorem noop_pass_deterministic (K : Nat) (files : List α)
    (exec1 exec2 : α → Except String ProcOutput) (c1 c2 : Nat → Nat → Bool)
    (h1 : ∀ i j, c1 i j = false) (h2 : ∀ i j, c2 i j = false) :
    runPassSummary K files none exec1 c1 = runPassSummary K files none exec2 c2 := by
  rw [runPassSummary, runPassSummary, passFold_noop exec1 c1 h1,
    passFold_noop exec2 c2 h2]

/-- Witness for C8 at a concrete input: ten items, chunk_size 3, two
different spawn environments, no cancellation. -/
theorem noop_pass_deterministic_witness :
    runPassSummary 3 tenItems none execExitFail neverCancel2 =
      runPassSummary 3 tenItems none execSpawnFail neverCancel2 :=
  noop_pass_deterministic 3 tenItems execExitFail execSpawnFail
    neverCancel2 neverCancel2 (fun _ _ => rfl) (fun _ _ => rfl)

end SpecModelledClaims

end Pfp
